import Mathlib

/-!
# Verification of the parallel controller comparison core

This file embeds, in Lean 4, the core of the data-driven quadcopter
controller comparison module
(`data_driven_quad_control/comparison/utilities/parallel_controller_sim.py`):
the setpoint progress tracker (`update_simulation_progress`), the rendezvous
coordinator loop (`parallel_controller_simulation`), and the trajectory
recorder (`construct_trajectory_data`), together with the normalization
utility `linear_interpolate` they rely on.

Conventions of the embedding:
* `torch` tensors of floats are modelled as (nested) lists of rationals `ℚ`;
  the affine normalization maps are exact over `ℚ`.
* Python `int` values (counters, configured step thresholds) are modelled
  as `ℤ`.
* The in-place mutation of the `SimInfo` progress object is modelled by a
  function returning the updated record.
* The external simulation engine (the `HoverEnv` collaborator) and the worker
  processes are modelled as oracles: an abstract environment interface and a
  per-tick arrival-ordered list of `(worker_env_idx, action)` pairs standing
  for the drained action queue.  Queue sends and console printing, which only
  perform I/O, have no counterpart in the embedding.
-/

namespace DataDrivenQuadControl

/-- Modelled from the spec: the mutable progress structure `SimInfo`
(spec §3 `ProgressState`) defined in `controller_comparison_config.py`, a
file absent from the sources; its fields and their initial values
(`in_progress` starts true, counters start at 0, `target_done` starts false)
are taken from spec §3 and from how `parallel_controller_sim.py` constructs
(`SimInfo(num_targets=num_setpoints)`) and mutates it. -/
structure SimInfo where
  num_targets : ℤ
  steps_since_target_set : ℤ := 0
  at_target_steps : ℤ := 0
  target_done : Bool := false
  current_target_idx : ℤ := 0
  in_progress : Bool := true
deriving Repr, DecidableEq

/-- `torch.abs(target_pos - drone_pos).max().item()` with `target_pos` a
position vector broadcast against the per-drone position rows `drone_pos`:
the largest absolute componentwise error over all drones and components.
The fold seeds with `0`, which is neutral here because every folded element
is an absolute value (torch's `max` requires a nonempty tensor). -/
def posError (target_pos : List ℚ) (drone_pos : List (List ℚ)) : ℚ :=
  ((drone_pos.map fun row => List.zipWith (fun t d => |t - d|) target_pos row).flatten).foldl
    max 0

/-- Embedding of `update_simulation_progress`
(`parallel_controller_sim.py`, lines 357-402).  The `verbose` parameter only
controls printing and is omitted.  Returns the updated `SimInfo`. -/
def update_simulation_progress (target_pos : List ℚ) (drone_pos : List (List ℚ))
    (steps_per_setpoint : Option ℤ) (min_at_target_steps : ℤ)
    (error_threshold : ℚ) (sim_info : SimInfo) : SimInfo :=
  match steps_per_setpoint with
  | some sps =>
    -- Change targets when the step count for this target reaches
    -- `steps_per_setpoint`
    let si := { sim_info with
      steps_since_target_set := sim_info.steps_since_target_set + 1 }
    if si.steps_since_target_set = sps then
      let si := { si with target_done := true }
      -- Mark simulation for termination if this is the last target
      if si.current_target_idx = si.num_targets - 1 then
        { si with in_progress := false }
      else si
    else si
  | none =>
    -- Change targets only when drones stabilize at them
    let pos_error := posError target_pos drone_pos
    if pos_error < error_threshold then
      let si := { sim_info with at_target_steps := sim_info.at_target_steps + 1 }
      -- Mark target as done if drones remain close to it long enough
      if si.at_target_steps = min_at_target_steps then
        let si := { si with target_done := true }
        -- Mark simulation for termination if this is the last target
        if si.current_target_idx = si.num_targets - 1 then
          { si with in_progress := false }
        else si
      else si
    else
      -- Reset at target step count if a drone moves out of the vicinity
      { sim_info with at_target_steps := 0 }

/-- `k` successive calls to `update_simulation_progress` with the same
per-call inputs (as happens in fixed-duration mode, where the positional
inputs are ignored). -/
def iterate_update (target_pos : List ℚ) (drone_pos : List (List ℚ))
    (steps_per_setpoint : Option ℤ) (min_at_target_steps : ℤ)
    (error_threshold : ℚ) : Nat → SimInfo → SimInfo
  | 0, s => s
  | k + 1, s =>
    update_simulation_progress target_pos drone_pos steps_per_setpoint
      min_at_target_steps error_threshold
      (iterate_update target_pos drone_pos steps_per_setpoint
        min_at_target_steps error_threshold k s)

/-- Successive calls to `update_simulation_progress` in stabilization mode,
one per drone-position reading in `drone_seq` (earliest first). -/
def run_stabilization (target_pos : List ℚ) (min_at_target_steps : ℤ)
    (error_threshold : ℚ) (drone_seq : List (List (List ℚ)))
    (s : SimInfo) : SimInfo :=
  drone_seq.foldl
    (fun si d =>
      update_simulation_progress target_pos d none min_at_target_steps
        error_threshold si)
    s

/-- Modelled from the spec: the affine remapping utility
`linear_interpolate` of `data_driven_quad_control/utilities/math_utils.py`,
a file absent from the sources; spec §4.3 gives its formula verbatim:
`y = y_min + (x - x_min) * (y_max - y_min) / (x_max - x_min)`. -/
def linear_interpolate (x x_min x_max y_min y_max : ℚ) : ℚ :=
  y_min + (x - x_min) * (y_max - y_min) / (x_max - x_min)

/-- `torch.clamp(x, lo, hi)`: `min(max(x, lo), hi)` componentwise; here the
scalar version. -/
def clamp (lo hi x : ℚ) : ℚ := min (max x lo) hi

/-- Elementwise `linear_interpolate` of an action row against per-dimension
bounds (`env_action_bounds[:, 0]` and `[:, 1]` broadcast along the action
dimension), fixed output range `[y_min, y_max]`. -/
def linear_interpolate_row (bounds : List (ℚ × ℚ)) (y_min y_max : ℚ)
    (row : List ℚ) : List ℚ :=
  List.zipWith (fun x b => linear_interpolate x b.1 b.2 y_min y_max) row bounds

/-- The action-queue drain loop of `parallel_controller_simulation`
(lines 285-301): each received `(env_idx, action)` pair is stored in the
action buffer at row `env_idx` (`action_buffer[env_idx] = action`); the
tensor-conversion branch only changes device/layout, not values. -/
def route_actions (action_buffer : List (List ℚ))
    (pairs : List (Nat × List ℚ)) : List (List ℚ) :=
  pairs.foldl (fun buf p => buf.set p.1 p.2) action_buffer

/-- `non_rl_env_mask` (lines 210-212): a Boolean row per environment, all
true except at `rl_env_idx`. -/
def non_rl_env_mask (num_envs rl_env_idx : Nat) : List Bool :=
  (List.replicate num_envs true).set rl_env_idx false

/-- The per-tick normalization step (lines 303-312): rows selected by
`non_rl_env_mask` are replaced by `linear_interpolate` to `[-1, 1]` against
the environment action bounds; the RL row is untouched. -/
def normalize_non_rl (rl_env_idx : Nat) (env_action_bounds : List (ℚ × ℚ))
    (action_buffer : List (List ℚ)) : List (List ℚ) :=
  (action_buffer.zip (non_rl_env_mask action_buffer.length rl_env_idx)).map
    fun rm =>
      if rm.2 then linear_interpolate_row env_action_bounds (-1) 1 rm.1
      else rm.1

/-- Modelled from the spec: the `ControlTrajectory` record of
`data_driven_quad_control/utilities/control_data_plotting.py`, a file absent
from the sources; spec §3 `Trajectory`: per-worker control inputs in
physical units, per-worker true outputs, and the tick-ordered setpoint
sequence. -/
structure ControlTrajectory where
  control_inputs : List (List (List ℚ))
  system_outputs : List (List (List ℚ))
  system_setpoint : List (List ℚ)
deriving Repr, DecidableEq

/-- `numpy`/`torch` stack-then-`transpose(1, 0, 2)`: the tick-major list of
per-env rows becomes an env-major list of per-tick rows.  The row count of
the transposed array is the common length of the stacked entries, read off
the first entry exactly as `stack` fixes the shape from its inputs. -/
def stack_transpose (ticks : List (List (List ℚ))) : List (List (List ℚ)) :=
  (List.range (ticks.headD []).length).map
    fun w => ticks.map fun rows => rows.getD w []

/-- Embedding of `construct_trajectory_data` (lines 405-443): clamp the
accumulated normalized actions to `[-1, 1]`, inverse-normalize them to
physical units, transpose actions and outputs from tick-major to env-major,
and stack the setpoints (`np.vstack` of per-tick target rows). -/
def construct_trajectory_data (env_action_bounds : List (ℚ × ℚ))
    (normalized_action_list : List (List (List ℚ)))
    (drone_pos_list : List (List (List ℚ)))
    (target_pos_list : List (List ℚ)) : ControlTrajectory :=
  let clamped := normalized_action_list.map
    fun rows => rows.map fun row => row.map (clamp (-1) 1)
  let control_input := clamped.map
    fun rows => rows.map
      fun row =>
        List.zipWith (fun x b => linear_interpolate x (-1) 1 b.1 b.2) row
          env_action_bounds
  { control_inputs := stack_transpose control_input
    system_outputs := stack_transpose drone_pos_list
    system_setpoint := target_pos_list }

/-- The environment collaborator (`HoverEnv`, spec §6 Simulation Stepper)
as an abstract interface over an opaque state type `σ`: the coordinator
only calls `step`, `get_pos` (with or without sensor noise) and
`update_target` (via `update_env_target_pos`). -/
structure EnvIface (σ : Type) where
  num_envs : Nat
  num_actions : Nat
  step : σ → List (List ℚ) → σ
  get_pos : σ → Bool → List (List ℚ)
  update_target : σ → List ℚ → σ

/-- The coordinator-local state threaded through the tick loop of
`parallel_controller_simulation`: environment state, progress info, the
batched action buffer, the three trajectory accumulators, the global tick
count (indexing the worker-action oracle) and the `is_new_target` flag. -/
structure LoopState (σ : Type) where
  env : σ
  sim_info : SimInfo
  action_buffer : List (List ℚ)
  normalized_action_list : List (List (List ℚ))
  drone_pos_list : List (List (List ℚ))
  target_pos_list : List (List ℚ)
  tick : Nat
  is_new_target : Bool

/-- One body of the inner `while not sim_info.target_done` loop
(lines 257-340): update progress from the true (noise-free) positions,
record the target, drain the action queue into the buffer (the oracle
`worker_actions` gives the arrival-ordered pairs of this tick), normalize
the non-RL rows, step the environment, and record the normalized actions
and true positions.  Queue sends to workers are I/O and have no value-level
effect here. -/
def sim_tick {σ : Type} (E : EnvIface σ)
    (worker_actions : Nat → List (Nat × List ℚ))
    (rl_env_idx : Nat) (env_action_bounds : List (ℚ × ℚ))
    (steps_per_setpoint : Option ℤ) (min_at_target_steps : ℤ)
    (error_threshold : ℚ) (target_pos : List ℚ)
    (st : LoopState σ) : LoopState σ :=
  let si := update_simulation_progress target_pos (E.get_pos st.env false)
    steps_per_setpoint min_at_target_steps error_threshold st.sim_info
  let targets := st.target_pos_list ++ [target_pos]
  let buf := route_actions st.action_buffer (worker_actions st.tick)
  let buf := normalize_non_rl rl_env_idx env_action_bounds buf
  let env1 := E.step st.env buf
  { env := env1
    sim_info := si
    action_buffer := buf
    normalized_action_list := st.normalized_action_list ++ [buf]
    drone_pos_list := st.drone_pos_list ++ [E.get_pos env1 false]
    target_pos_list := targets
    tick := st.tick + 1
    is_new_target := false }

/-- The inner `while not sim_info.target_done` loop, with explicit `fuel`
standing for the (unbounded) number of iterations: `none` means the fuel
ran out before the loop exited, `some` is the state at loop exit. -/
def setpoint_loop {σ : Type} (E : EnvIface σ)
    (worker_actions : Nat → List (Nat × List ℚ))
    (rl_env_idx : Nat) (env_action_bounds : List (ℚ × ℚ))
    (steps_per_setpoint : Option ℤ) (min_at_target_steps : ℤ)
    (error_threshold : ℚ) (target_pos : List ℚ) :
    Nat → LoopState σ → Option (LoopState σ)
  | 0, st => if st.sim_info.target_done then some st else none
  | fuel + 1, st =>
    if st.sim_info.target_done then some st
    else
      setpoint_loop E worker_actions rl_env_idx env_action_bounds
        steps_per_setpoint min_at_target_steps error_threshold target_pos
        fuel
        (sim_tick E worker_actions rl_env_idx env_action_bounds
          steps_per_setpoint min_at_target_steps error_threshold target_pos
          st)

/-- The outer `for target_idx, target_pos in enumerate(eval_setpoints)` loop
(lines 236-340): per setpoint, reset the progress fields, set the
environment target, and run the inner loop. -/
def run_setpoints {σ : Type} (E : EnvIface σ)
    (worker_actions : Nat → List (Nat × List ℚ))
    (rl_env_idx : Nat) (env_action_bounds : List (ℚ × ℚ))
    (steps_per_setpoint : Option ℤ) (min_at_target_steps : ℤ)
    (error_threshold : ℚ) (fuel : Nat) :
    List (List ℚ) → ℤ → LoopState σ → Option (LoopState σ)
  | [], _, st => some st
  | target_pos :: rest, target_idx, st =>
    let st1 : LoopState σ :=
      { st with
        sim_info := { st.sim_info with
          steps_since_target_set := 0
          at_target_steps := 0
          target_done := false
          current_target_idx := target_idx }
        env := E.update_target st.env target_pos
        is_new_target := true }
    match
      setpoint_loop E worker_actions rl_env_idx env_action_bounds
        steps_per_setpoint min_at_target_steps error_threshold target_pos
        fuel st1
    with
    | none => none
    | some st2 =>
      run_setpoints E worker_actions rl_env_idx env_action_bounds
        steps_per_setpoint min_at_target_steps error_threshold fuel
        rest (target_idx + 1) st2

/-- The initial coordinator state of `parallel_controller_simulation`
(lines 204-233): a zero action buffer of shape
`(env.num_envs, env.num_actions)`, empty accumulators, and
`SimInfo(num_targets=len(eval_setpoints))`. -/
def initial_loop_state {σ : Type} (E : EnvIface σ) (env0 : σ)
    (num_setpoints : ℤ) : LoopState σ :=
  { env := env0
    sim_info := { num_targets := num_setpoints }
    action_buffer := List.replicate E.num_envs (List.replicate E.num_actions 0)
    normalized_action_list := []
    drone_pos_list := []
    target_pos_list := []
    tick := 0
    is_new_target := true }

/-- The simulation core of `parallel_controller_simulation` after worker
startup: run all setpoints from the initial state. -/
def parallel_sim_core {σ : Type} (E : EnvIface σ) (env0 : σ)
    (worker_actions : Nat → List (Nat × List ℚ))
    (rl_env_idx : Nat) (env_action_bounds : List (ℚ × ℚ))
    (eval_setpoints : List (List ℚ))
    (steps_per_setpoint : Option ℤ) (min_at_target_steps : ℤ)
    (error_threshold : ℚ) (fuel : Nat) : Option (LoopState σ) :=
  run_setpoints E worker_actions rl_env_idx env_action_bounds
    steps_per_setpoint min_at_target_steps error_threshold fuel
    eval_setpoints 0
    (initial_loop_state E env0 (Int.ofNat eval_setpoints.length))

/-- `parallel_controller_simulation` as a whole (value level): run the core
loop, then assemble the `ControlTrajectory` with
`construct_trajectory_data` (lines 342-354). -/
def parallel_controller_simulation {σ : Type} (E : EnvIface σ) (env0 : σ)
    (worker_actions : Nat → List (Nat × List ℚ))
    (rl_env_idx : Nat) (env_action_bounds : List (ℚ × ℚ))
    (eval_setpoints : List (List ℚ))
    (steps_per_setpoint : Option ℤ) (min_at_target_steps : ℤ)
    (error_threshold : ℚ) (fuel : Nat) : Option ControlTrajectory :=
  match
    parallel_sim_core E env0 worker_actions rl_env_idx env_action_bounds
      eval_setpoints steps_per_setpoint min_at_target_steps error_threshold
      fuel
  with
  | none => none
  | some st =>
    some (construct_trajectory_data env_action_bounds
      st.normalized_action_list st.drone_pos_list st.target_pos_list)

/-- Observable startup effects of `parallel_controller_simulation`:
creating a multiprocessing queue or creating-and-starting a worker
process. -/
inductive StartupEvent where
  | createQueue (queue_name : String) : StartupEvent
  | spawnWorker (worker_name : String) : StartupEvent
deriving Repr, DecidableEq

/-- The startup sequence of `parallel_controller_simulation`
(lines 120-202) at the level of its observable effects, in source order:
the start-method check runs first and raises `ValueError` before any queue
is created or any worker process is created and started; otherwise the five
queues are created, then the three workers are created and started
(tracking, RL, DD-MPC, in that order).  `start_method` is the value of
`mp.get_start_method(allow_none=True)`. -/
def parallel_controller_startup (start_method : Option String) :
    Except String (List StartupEvent) :=
  if start_method ≠ some "spawn" then
    Except.error "Spawn start method is required for this function."
  else
    Except.ok
      [StartupEvent.createQueue "target_signal_queue",
       StartupEvent.createQueue "action_queue",
       StartupEvent.createQueue "tracking_obs_queue",
       StartupEvent.createQueue "dd_mpc_obs_queue",
       StartupEvent.createQueue "rl_obs_queue",
       StartupEvent.spawnWorker "tracking_controller_worker",
       StartupEvent.spawnWorker "rl_controller_worker",
       StartupEvent.spawnWorker "dd_mpc_controller_worker"]

/-- A degenerate three-drone environment over trivial state, used to
instantiate the coordinator loop on a concrete run: three environment
slots, zero action dimensions, position vectors of dimension zero. -/
def trivialEnv : EnvIface Unit where
  num_envs := 3
  num_actions := 0
  step := fun s _ => s
  get_pos := fun _ _ => [[], [], []]
  update_target := fun s _ => s

/-- A worker-action oracle delivering no queue messages (consistent with
`trivialEnv` having zero action dimensions). -/
def noActions : Nat → List (Nat × List ℚ) := fun _ => []

/-- Shape invariant of the coordinator state: the action buffer and every
recorded action/position batch have one row per environment, and each of
the three accumulators holds exactly one entry per elapsed tick. -/
def loop_state_wf {σ : Type} (E : EnvIface σ) (st : LoopState σ) : Prop :=
  st.action_buffer.length = E.num_envs ∧
  (∀ rows ∈ st.normalized_action_list, rows.length = E.num_envs) ∧
  (∀ rows ∈ st.drone_pos_list, rows.length = E.num_envs) ∧
  st.normalized_action_list.length = st.tick ∧
  st.drone_pos_list.length = st.tick ∧
  st.target_pos_list.length = st.tick

/-- The final coordinator state of the one-tick degenerate run of
`parallel_sim_core` on `trivialEnv` (one setpoint, fixed-duration mode with
`steps_per_setpoint = 1`). -/
def c1_final_state : LoopState Unit :=
  { env := ()
    sim_info :=
      { num_targets := 1
        steps_since_target_set := 1
        at_target_steps := 0
        target_done := true
        current_target_idx := 0
        in_progress := false }
    action_buffer := [[], [], []]
    normalized_action_list := [[[], [], []]]
    drone_pos_list := [[[], [], []]]
    target_pos_list := [[]]
    tick := 1
    is_new_target := false }

/-- The trajectory produced by the degenerate run behind
`c1_final_state`. -/
def c1_final_traj : ControlTrajectory :=
  { control_inputs := [[[]], [[]], [[]]]
    system_outputs := [[[]], [[]], [[]]]
    system_setpoint := [[]] }

/-! ## Basic facts about the progress tracker -/

theorem fixed_mode_counter (target_pos : List ℚ) (drone_pos : List (List ℚ))
    (sps m : ℤ) (e : ℚ) (s : SimInfo) :
    (update_simulation_progress target_pos drone_pos (some sps) m e
        s).steps_since_target_set = s.steps_since_target_set + 1 := by
  simp only [update_simulation_progress]
  split_ifs <;> rfl

theorem fixed_mode_done (target_pos : List ℚ) (drone_pos : List (List ℚ))
    (sps m : ℤ) (e : ℚ) (s : SimInfo) :
    (update_simulation_progress target_pos drone_pos (some sps) m e
        s).target_done =
      (s.target_done || decide (s.steps_since_target_set + 1 = sps)) := by
  simp only [update_simulation_progress]
  split_ifs with h1 h2 <;> simp [h1]

theorem iterate_fixed_invariant (target_pos : List ℚ)
    (drone_pos : List (List ℚ)) (N m : ℤ) (e : ℚ) (s : SimInfo)
    (hN : 1 ≤ N) (h0 : s.steps_since_target_set = 0)
    (hd : s.target_done = false) :
    ∀ j : Nat, (j : ℤ) ≤ N →
      (iterate_update target_pos drone_pos (some N) m e j
          s).steps_since_target_set = (j : ℤ) ∧
      ((iterate_update target_pos drone_pos (some N) m e j s).target_done
          = true ↔ (j : ℤ) = N) := by
  intro j
  induction j with
  | zero =>
    intro _
    refine ⟨h0, ?_⟩
    show s.target_done = true ↔ _
    rw [hd]
    simp only [Bool.false_eq_true, false_iff]
    push_cast
    omega
  | succ j ih =>
    intro hj
    have hj' : (j : ℤ) ≤ N := by push_cast at hj ⊢; omega
    obtain ⟨hc, hdone⟩ := ih hj'
    have hjN : ¬ ((j : ℤ) = N) := by push_cast at hj; omega
    have hdj :
        (iterate_update target_pos drone_pos (some N) m e j s).target_done
          = false := by
      rcases Bool.eq_false_or_eq_true
        (iterate_update target_pos drone_pos (some N) m e j s).target_done
        with h | h
      · exact (hjN (hdone.mp h)).elim
      · exact h
    constructor
    · show (update_simulation_progress _ _ _ _ _ _).steps_since_target_set = _
      rw [fixed_mode_counter, hc]
      push_cast
      ring
    · show (update_simulation_progress _ _ _ _ _ _).target_done = true ↔ _
      rw [fixed_mode_done, hdj, hc]
      simp only [Bool.false_or, decide_eq_true_eq]
      push_cast
      omega

/-! ## Claim theorems for the progress tracker -/

/-- Claim C2 (fixed-duration mode): with `steps_per_setpoint = N ≥ 1`, every
call increments `steps_since_target_set` by exactly 1, and starting from a
freshly reset state (`steps_since_target_set = 0`, `target_done = false`)
the `j`-th call (for `j ≤ N`) leaves `target_done` false for `j < N` and
sets it true exactly on the `N`-th call. -/
theorem spec_c2_fixed_duration_mode (target_pos : List ℚ)
    (drone_pos : List (List ℚ)) (N m : ℤ) (e : ℚ) (s : SimInfo)
    (hN : 1 ≤ N) (h0 : s.steps_since_target_set = 0)
    (hd : s.target_done = false) :
    (∀ s' : SimInfo,
      (update_simulation_progress target_pos drone_pos (some N) m e
          s').steps_since_target_set = s'.steps_since_target_set + 1) ∧
    ∀ j : Nat, (j : ℤ) ≤ N →
      (iterate_update target_pos drone_pos (some N) m e j
          s).steps_since_target_set = (j : ℤ) ∧
      ((iterate_update target_pos drone_pos (some N) m e j s).target_done
          = true ↔ (j : ℤ) = N) :=
  ⟨fun s' => fixed_mode_counter target_pos drone_pos N m e s',
   iterate_fixed_invariant target_pos drone_pos N m e s hN h0 hd⟩

/-- Witness for C2: with `steps_per_setpoint = 2`, the second call from a
reset state sets `target_done`. -/
theorem spec_c2_fixed_duration_mode_witness :
    (iterate_update [] [] (some 2) 0 0 2 { num_targets := 1 }).target_done
      = true :=
  ((spec_c2_fixed_duration_mode [] [] 2 0 0 { num_targets := 1 }
      (by decide) rfl rfl).2 2 (by decide)).2.mpr (by decide)

/-- Claim C3 (stabilization mode): with `steps_per_setpoint = None`, each
call increments `at_target_steps` when the maximal absolute position error
is below the threshold and resets it to 0 otherwise, and (from a
not-yet-done state) marks the target done exactly when the incremented
counter reaches `min_at_target_steps`; and on the concrete error sequence
`[0.2, 0.01, 0.01, 0.2, 0.01, 0.01, 0.01]` with threshold `0.05` and
`min_at_target_steps = 3`, `target_done` is false after every proper
prefix of the calls and true after the 7th call. -/
theorem spec_c3_stabilization_mode :
    (∀ (target_pos : List ℚ) (drone_pos : List (List ℚ)) (m : ℤ) (e : ℚ)
        (s : SimInfo),
      ((update_simulation_progress target_pos drone_pos none m e
          s).at_target_steps =
        if posError target_pos drone_pos < e then s.at_target_steps + 1
        else 0) ∧
      (s.target_done = false →
        ((update_simulation_progress target_pos drone_pos none m e
            s).target_done = true ↔
          posError target_pos drone_pos < e ∧ s.at_target_steps + 1 = m))) ∧
    (∀ j : Nat, j < 7 →
      (run_stabilization [0] 3 (1/20)
        (List.take j
          [[[1/5]], [[1/100]], [[1/100]], [[1/5]], [[1/100]], [[1/100]],
            [[1/100]]])
        { num_targets := 1 }).target_done = false) ∧
    (run_stabilization [0] 3 (1/20)
      [[[1/5]], [[1/100]], [[1/100]], [[1/5]], [[1/100]], [[1/100]],
        [[1/100]]]
      { num_targets := 1 }).target_done = true := by
  refine ⟨fun target_pos drone_pos m e s => ⟨?_, fun hd => ?_⟩, ?_, ?_⟩
  · simp only [update_simulation_progress]
    split_ifs with h1 h2 h3 <;> simp
  · simp only [update_simulation_progress]
    split_ifs with h1 h2 h3 <;> simp_all
  · intro j hj
    interval_cases j <;>
      norm_num [run_stabilization, update_simulation_progress, posError, abs]
  · norm_num [run_stabilization, update_simulation_progress, posError, abs]

/-- Witness for C3: after 6 of the 7 calls of the concrete scenario,
`target_done` is still false. -/
theorem spec_c3_stabilization_mode_witness :
    (run_stabilization [0] 3 (1/20)
      (List.take 6
        [[[1/5]], [[1/100]], [[1/100]], [[1/5]], [[1/100]], [[1/100]],
          [[1/100]]])
      { num_targets := 1 }).target_done = false :=
  spec_c3_stabilization_mode.2.1 6 (by decide)

/-- Claim C4 as stated is false on the code: with `steps_per_setpoint = 0`
(fixed-duration mode) or `min_at_target_steps = 0` (stabilization mode,
here with the drone exactly at the target), one call from a freshly reset
state leaves `target_done` false — the counters are compared to the
configured value only after being incremented, so the value `0` is never
matched. -/
theorem spec_c4_counterexample :
    (update_simulation_progress [0] [[0]] (some 0) 10 (1/20)
      { num_targets := 1 }).target_done = false ∧
    (update_simulation_progress [0] [[0]] none 0 (1/20)
      { num_targets := 1 }).target_done = false := by
  constructor
  · decide
  · norm_num [update_simulation_progress, posError, abs]

/-- Claim C4 amended: with `min_at_target_steps = 0` (stabilization mode)
or `steps_per_setpoint = 0` (fixed-duration mode), a single call to
`update_simulation_progress` from a freshly reset state does NOT mark the
target done: `target_done` stays false (the counter equality is tested
after the increment, so a threshold of 0 is never reached; no
special-casing or division by the zero value occurs). -/
theorem spec_c4_zero_count_not_done (target_pos : List ℚ)
    (drone_pos : List (List ℚ)) (m : ℤ) (e : ℚ) (s : SimInfo)
    (h0 : s.steps_since_target_set = 0) (ha : s.at_target_steps = 0)
    (hd : s.target_done = false) :
    (update_simulation_progress target_pos drone_pos (some 0) m e
        s).target_done = false ∧
    (update_simulation_progress target_pos drone_pos none 0 e
        s).target_done = false := by
  constructor
  · rw [fixed_mode_done, h0, hd]
    simp
  · simp only [update_simulation_progress]
    split_ifs with h1 h2 <;> simp_all

/-- Witness for the amended C4 at a concrete reset state. -/
theorem spec_c4_zero_count_not_done_witness :
    (update_simulation_progress [1] [[1]] (some 0) 10 (1/100)
        { num_targets := 2 }).target_done = false ∧
    (update_simulation_progress [1] [[1]] none 0 (1/100)
        { num_targets := 2 }).target_done = false :=
  spec_c4_zero_count_not_done [1] [[1]] 10 (1/100) { num_targets := 2 }
    rfl rfl rfl

/-- Claim C5 (termination flag): from a state where the current target is
not yet done and the run is in progress, a call to
`update_simulation_progress` flips `in_progress` to false exactly when that
call marks `target_done` true while `current_target_idx` is the final
setpoint index `num_targets - 1`; otherwise `in_progress` stays true.
Holds in both modes. -/
theorem spec_c5_termination_flag (target_pos : List ℚ)
    (drone_pos : List (List ℚ)) (steps_per_setpoint : Option ℤ) (m : ℤ)
    (e : ℚ) (s : SimInfo) (hd : s.target_done = false)
    (hp : s.in_progress = true) :
    (update_simulation_progress target_pos drone_pos steps_per_setpoint m e
        s).in_progress = false ↔
      ((update_simulation_progress target_pos drone_pos steps_per_setpoint
          m e s).target_done = true ∧
        s.current_target_idx = s.num_targets - 1) := by
  cases steps_per_setpoint <;>
    · simp only [update_simulation_progress]
      split_ifs <;> simp_all

/-- Witness for C5: with one setpoint and `steps_per_setpoint = 1`, the
first call both finishes the target and clears `in_progress`. -/
theorem spec_c5_termination_flag_witness :
    (update_simulation_progress [] [] (some 1) 0 0
        { num_targets := 1 }).in_progress = false ↔
      ((update_simulation_progress [] [] (some 1) 0 0
          { num_targets := 1 }).target_done = true ∧
        (0 : ℤ) = 1 - 1) :=
  spec_c5_termination_flag [] [] (some 1) 0 0 { num_targets := 1 } rfl rfl

/-- Claim C10 (mode isolation / frame conditions): in fixed-duration mode
`update_simulation_progress` never modifies `at_target_steps` and its
result does not depend on `drone_pos` or `error_threshold`; in
stabilization mode it never modifies `steps_since_target_set`; and in both
modes it leaves `num_targets` and `current_target_idx` unchanged. -/
theorem spec_c10_mode_isolation (target_pos : List ℚ)
    (drone_pos : List (List ℚ)) (sps m : ℤ) (e : ℚ) (s : SimInfo) :
    ((update_simulation_progress target_pos drone_pos (some sps) m e
        s).at_target_steps = s.at_target_steps) ∧
    (∀ (drone_pos2 : List (List ℚ)) (e2 : ℚ),
      update_simulation_progress target_pos drone_pos (some sps) m e s =
        update_simulation_progress target_pos drone_pos2 (some sps) m e2
          s) ∧
    ((update_simulation_progress target_pos drone_pos none m e
        s).steps_since_target_set = s.steps_since_target_set) ∧
    (∀ o : Option ℤ,
      (update_simulation_progress target_pos drone_pos o m e
          s).num_targets = s.num_targets ∧
      (update_simulation_progress target_pos drone_pos o m e
          s).current_target_idx = s.current_target_idx) := by
  refine ⟨?_, fun drone_pos2 e2 => ?_, ?_, fun o => ?_⟩
  · simp only [update_simulation_progress]
    split_ifs <;> rfl
  · simp only [update_simulation_progress]
  · simp only [update_simulation_progress]
    split_ifs <;> rfl
  · cases o <;>
      · constructor <;>
          · simp only [update_simulation_progress]
            split_ifs <;> rfl

/-! ## Action routing -/

theorem route_actions_getD_of_not_mem (buf : List (List ℚ))
    (pairs : List (Nat × List ℚ)) (i : Nat)
    (h : i ∉ pairs.map Prod.fst) :
    (route_actions buf pairs).getD i [] = buf.getD i [] := by
  induction pairs generalizing buf with
  | nil => rfl
  | cons q rest ih =>
    simp only [List.map_cons, List.mem_cons] at h
    push_neg at h
    show (route_actions (buf.set q.1 q.2) rest).getD i [] = _
    rw [ih _ h.2, List.getD_eq_getElem?_getD, List.getD_eq_getElem?_getD,
      List.getElem?_set_ne (Ne.symm h.1)]

theorem route_actions_getD_mem (buf : List (List ℚ))
    (pairs : List (Nat × List ℚ))
    (hnodup : (pairs.map Prod.fst).Nodup) :
    ∀ p ∈ pairs, p.1 < buf.length →
      (route_actions buf pairs).getD p.1 [] = p.2 := by
  induction pairs generalizing buf with
  | nil =>
    intro p hp
    cases hp
  | cons q rest ih =>
    intro p hp hlen
    simp only [List.map_cons, List.nodup_cons] at hnodup
    rcases List.mem_cons.mp hp with h | h
    · subst h
      show (route_actions (buf.set p.1 p.2) rest).getD p.1 [] = p.2
      rw [route_actions_getD_of_not_mem _ _ _ hnodup.1,
        List.getD_eq_getElem?_getD, List.getElem?_set_eq_of_lt _ hlen]
      rfl
    · exact ih (buf.set q.1 q.2) hnodup.2 p h (by simpa using hlen)

theorem route_actions_perm (buf : List (List ℚ))
    (pairs pairs2 : List (Nat × List ℚ))
    (hnodup : (pairs.map Prod.fst).Nodup) (hperm : pairs.Perm pairs2) :
    route_actions buf pairs = route_actions buf pairs2 := by
  unfold route_actions
  refine hperm.foldl_eq' ?_ buf
  intro x hx y hy z
  by_cases hxy : x = y
  · subst hxy
    rfl
  · have hne : x.1 ≠ y.1 := fun hh =>
      hxy (List.inj_on_of_nodup_map hnodup hx hy hh)
    exact List.set_comm _ _ _ hne

/-- Claim C6 (action routing is arrival-order independent): when the
coordinator drains exactly `num_processes` `(worker_env_idx, action)` pairs
with distinct worker indices into the action buffer, the resulting buffer
contents are the same for every arrival order (any permutation of the
pairs), and each in-range worker row holds exactly that worker's action. -/
theorem spec_c6_action_routing (action_buffer : List (List ℚ))
    (pairs pairs2 : List (Nat × List ℚ)) (num_processes : Nat)
    (_hcount : pairs.length = num_processes)
    (hnodup : (pairs.map Prod.fst).Nodup)
    (hperm : pairs.Perm pairs2) :
    route_actions action_buffer pairs = route_actions action_buffer pairs2 ∧
    ∀ p ∈ pairs, p.1 < action_buffer.length →
      (route_actions action_buffer pairs).getD p.1 [] = p.2 :=
  ⟨route_actions_perm action_buffer pairs pairs2 hnodup hperm,
   route_actions_getD_mem action_buffer pairs hnodup⟩

/-- Witness for C6: three workers completing in reverse declared order
produce the same buffer, and slot 1 holds worker 1's action. -/
theorem spec_c6_action_routing_witness :
    route_actions [[0], [0], [0]] [(0, [5]), (1, [6]), (2, [7])] =
      route_actions [[0], [0], [0]] [(2, [7]), (1, [6]), (0, [5])] ∧
    (route_actions [[0], [0], [0]]
        [(0, [5]), (1, [6]), (2, [7])]).getD 1 [] = [6] := by
  have h := spec_c6_action_routing [[0], [0], [0]]
    [(0, [5]), (1, [6]), (2, [7])] [(2, [7]), (1, [6]), (0, [5])] 3 rfl
    (by decide) (by decide)
  exact ⟨h.1, h.2 (1, [6]) (by simp) (by decide)⟩

/-! ## Per-tick normalization and the normalization round trip -/

/-- Claim C7 (per-tick normalization): after routing, the normalization
step leaves the buffer length unchanged, maps every non-RL row elementwise
through the affine map `y = y_min + (x - x_min) * (y_max - y_min) /
(x_max - x_min)` with `(x_min, x_max)` the per-dimension environment action
bounds and `(y_min, y_max) = (-1, 1)`, and leaves the RL row exactly
unchanged. -/
theorem spec_c7_per_tick_normalization (rl_env_idx : Nat)
    (env_action_bounds : List (ℚ × ℚ)) (action_buffer : List (List ℚ)) :
    (normalize_non_rl rl_env_idx env_action_bounds
        action_buffer).length = action_buffer.length ∧
    ∀ i : Nat, i < action_buffer.length →
      (normalize_non_rl rl_env_idx env_action_bounds action_buffer).getD i
          [] =
        if i = rl_env_idx then action_buffer.getD i []
        else
          List.zipWith
            (fun x b => (-1) + (x - b.1) * (1 - (-1)) / (b.2 - b.1))
            (action_buffer.getD i []) env_action_bounds := by
  have hmask :
      (non_rl_env_mask action_buffer.length rl_env_idx).length =
        action_buffer.length := by
    simp [non_rl_env_mask]
  have hlen :
      (normalize_non_rl rl_env_idx env_action_bounds
        action_buffer).length = action_buffer.length := by
    simp [normalize_non_rl, hmask]
  refine ⟨hlen, fun i hi => ?_⟩
  have hmaskv :
      (non_rl_env_mask action_buffer.length rl_env_idx)[i]? =
        some (if i = rl_env_idx then false else true) := by
    unfold non_rl_env_mask
    by_cases hir : i = rl_env_idx
    · subst hir
      rw [if_pos rfl]
      exact List.getElem?_set_eq_of_lt false (by simpa using hi)
    · rw [if_neg hir, List.getElem?_set_ne (Ne.symm hir)]
      simp [List.getElem?_replicate, hi]
  have hbuf : action_buffer[i]? = some (action_buffer.get ⟨i, hi⟩) :=
    List.getElem?_eq_getElem hi
  have hz :
      (action_buffer.zip
          (non_rl_env_mask action_buffer.length rl_env_idx))[i]? =
        some (action_buffer.get ⟨i, hi⟩,
          if i = rl_env_idx then false else true) := by
    rw [List.getElem?_zip_eq_some]
    exact ⟨hbuf, hmaskv⟩
  rw [List.getD_eq_getElem?_getD]
  unfold normalize_non_rl
  rw [List.getElem?_map, hz]
  by_cases hir : i = rl_env_idx
  · subst hir
    simp [hbuf]
  · simp [hir, hbuf, linear_interpolate_row, linear_interpolate]

/-- Witness for C7: a two-row buffer with RL row 0; row 1 is normalized
from bounds `(0, 4)` while row 0 is untouched. -/
theorem spec_c7_per_tick_normalization_witness :
    (normalize_non_rl 0 [(0, 4)] [[3], [3]]).length = 2 ∧
    (normalize_non_rl 0 [(0, 4)] [[3], [3]]).getD 1 [] =
      List.zipWith (fun x b => (-1) + (x - b.1) * (1 - (-1)) / (b.2 - b.1))
        [3] [((0 : ℚ), (4 : ℚ))] := by
  have h := spec_c7_per_tick_normalization 0 [(0, 4)] [[3], [3]]
  refine ⟨h.1, ?_⟩
  have h2 := h.2 1 (by decide)
  simpa using h2

/-- Claim C8 (normalization round-trip): for bounds `mn < mx` and
`mn ≤ x ≤ mx`, the forward normalization to `[-1, 1]` lands inside
`[-1, 1]` (so the recorder's defensive clamp is the identity on it), and
the recorder's inverse normalization returns exactly `x`. -/
theorem spec_c8_normalization_round_trip (mn mx x : ℚ) (hlt : mn < mx)
    (hx1 : mn ≤ x) (hx2 : x ≤ mx) :
    clamp (-1) 1 (linear_interpolate x mn mx (-1) 1) =
      linear_interpolate x mn mx (-1) 1 ∧
    linear_interpolate (clamp (-1) 1 (linear_interpolate x mn mx (-1) 1))
      (-1) 1 mn mx = x := by
  have hden : (0 : ℚ) < mx - mn := by linarith
  have hy1 : (-1 : ℚ) ≤ linear_interpolate x mn mx (-1) 1 := by
    unfold linear_interpolate
    have hnn : (0 : ℚ) ≤ (x - mn) * (1 - (-1)) / (mx - mn) :=
      div_nonneg (by linarith) (by linarith)
    linarith
  have hy2 : linear_interpolate x mn mx (-1) 1 ≤ 1 := by
    unfold linear_interpolate
    have hle : (x - mn) * (1 - (-1)) / (mx - mn) ≤ 2 := by
      rw [div_le_iff₀ hden]
      linarith
    linarith
  have hcl : clamp (-1) 1 (linear_interpolate x mn mx (-1) 1) =
      linear_interpolate x mn mx (-1) 1 := by
    unfold clamp
    rw [max_eq_left hy1, min_eq_left hy2]
  refine ⟨hcl, ?_⟩
  rw [hcl]
  unfold linear_interpolate
  have hne : mx - mn ≠ 0 := ne_of_gt hden
  field_simp

/-- Witness for C8 at bounds `(0, 2)` and `x = 1`. -/
theorem spec_c8_normalization_round_trip_witness :
    clamp (-1) 1 (linear_interpolate 1 0 2 (-1) 1) =
      linear_interpolate 1 0 2 (-1) 1 ∧
    linear_interpolate (clamp (-1) 1 (linear_interpolate 1 0 2 (-1) 1))
      (-1) 1 0 2 = 1 :=
  spec_c8_normalization_round_trip 0 2 1 (by norm_num) (by norm_num)
    (by norm_num)

/-! ## Fail-fast startup -/

/-- Claim C9 (fail-fast on unsupported spawn mode): whenever the
multiprocessing start method is not `"spawn"`,
`parallel_controller_simulation` raises its `ValueError` as its very first
effect, so the produced startup trace is the error — no queue is created
and no worker process is created or started. -/
theorem spec_c9_fail_fast (start_method : Option String)
    (h : start_method ≠ some "spawn") :
    parallel_controller_startup start_method =
      Except.error "Spawn start method is required for this function." := by
  unfold parallel_controller_startup
  rw [if_pos h]

/-- Witness for C9: an uninitialized start method (`None`) fails fast. -/
theorem spec_c9_fail_fast_witness :
    parallel_controller_startup none =
      Except.error "Spawn start method is required for this function." :=
  spec_c9_fail_fast none (by simp)

/-! ## Tick alignment through the coordinator loop -/

theorem route_actions_length (buf : List (List ℚ))
    (pairs : List (Nat × List ℚ)) :
    (route_actions buf pairs).length = buf.length := by
  induction pairs generalizing buf with
  | nil => rfl
  | cons q rest ih =>
    show (route_actions (buf.set q.1 q.2) rest).length = _
    rw [ih, List.length_set]

theorem normalize_non_rl_length (rl_env_idx : Nat)
    (env_action_bounds : List (ℚ × ℚ)) (action_buffer : List (List ℚ)) :
    (normalize_non_rl rl_env_idx env_action_bounds action_buffer).length =
      action_buffer.length := by
  simp [normalize_non_rl, non_rl_env_mask]

theorem sim_tick_wf {σ : Type} (E : EnvIface σ)
    (worker_actions : Nat → List (Nat × List ℚ)) (rl_env_idx : Nat)
    (env_action_bounds : List (ℚ × ℚ)) (steps_per_setpoint : Option ℤ)
    (min_at_target_steps : ℤ) (error_threshold : ℚ) (target_pos : List ℚ)
    (st : LoopState σ)
    (hpos : ∀ s b, (E.get_pos s b).length = E.num_envs)
    (h : loop_state_wf E st) :
    loop_state_wf E
      (sim_tick E worker_actions rl_env_idx env_action_bounds
        steps_per_setpoint min_at_target_steps error_threshold target_pos
        st) ∧
    (sim_tick E worker_actions rl_env_idx env_action_bounds
        steps_per_setpoint min_at_target_steps error_threshold target_pos
        st).tick = st.tick + 1 := by
  obtain ⟨h1, h2, h3, h4, h5, h6⟩ := h
  have hbuf :
      (normalize_non_rl rl_env_idx env_action_bounds
        (route_actions st.action_buffer
          (worker_actions st.tick))).length = E.num_envs := by
    rw [normalize_non_rl_length, route_actions_length, h1]
  refine ⟨⟨hbuf, ?_, ?_, ?_, ?_, ?_⟩, rfl⟩
  · intro rows hr
    rcases List.mem_append.mp hr with hr | hr
    · exact h2 rows hr
    · rw [List.mem_singleton.mp hr]
      exact hbuf
  · intro rows hr
    rcases List.mem_append.mp hr with hr | hr
    · exact h3 rows hr
    · rw [List.mem_singleton.mp hr]
      exact hpos _ _
  · show (st.normalized_action_list ++ [_]).length = st.tick + 1
    rw [List.length_append, h4]
    rfl
  · show (st.drone_pos_list ++ [_]).length = st.tick + 1
    rw [List.length_append, h5]
    rfl
  · show (st.target_pos_list ++ [_]).length = st.tick + 1
    rw [List.length_append, h6]
    rfl

theorem setpoint_loop_wf {σ : Type} (E : EnvIface σ)
    (worker_actions : Nat → List (Nat × List ℚ)) (rl_env_idx : Nat)
    (env_action_bounds : List (ℚ × ℚ)) (steps_per_setpoint : Option ℤ)
    (min_at_target_steps : ℤ) (error_threshold : ℚ) (target_pos : List ℚ)
    (hpos : ∀ s b, (E.get_pos s b).length = E.num_envs) :
    ∀ (fuel : Nat) (st st2 : LoopState σ), loop_state_wf E st →
      setpoint_loop E worker_actions rl_env_idx env_action_bounds
        steps_per_setpoint min_at_target_steps error_threshold target_pos
        fuel st = some st2 →
      loop_state_wf E st2 := by
  intro fuel
  induction fuel with
  | zero =>
    intro st st2 hwf hrun
    simp only [setpoint_loop] at hrun
    split at hrun
    · have heq := Option.some.inj hrun
      subst heq
      exact hwf
    · cases hrun
  | succ fuel ih =>
    intro st st2 hwf hrun
    simp only [setpoint_loop] at hrun
    split at hrun
    · have heq := Option.some.inj hrun
      subst heq
      exact hwf
    · exact ih _ _
        (sim_tick_wf E worker_actions rl_env_idx env_action_bounds
          steps_per_setpoint min_at_target_steps error_threshold target_pos
          st hpos hwf).1
        hrun

theorem run_setpoints_wf {σ : Type} (E : EnvIface σ)
    (worker_actions : Nat → List (Nat × List ℚ)) (rl_env_idx : Nat)
    (env_action_bounds : List (ℚ × ℚ)) (steps_per_setpoint : Option ℤ)
    (min_at_target_steps : ℤ) (error_threshold : ℚ) (fuel : Nat)
    (hpos : ∀ s b, (E.get_pos s b).length = E.num_envs) :
    ∀ (setpoints : List (List ℚ)) (target_idx : ℤ)
      (st st2 : LoopState σ), loop_state_wf E st →
      run_setpoints E worker_actions rl_env_idx env_action_bounds
        steps_per_setpoint min_at_target_steps error_threshold fuel
        setpoints target_idx st = some st2 →
      loop_state_wf E st2 := by
  intro setpoints
  induction setpoints with
  | nil =>
    intro target_idx st st2 hwf hrun
    simp only [run_setpoints] at hrun
    have heq := Option.some.inj hrun
    subst heq
    exact hwf
  | cons target_pos rest ih =>
    intro target_idx st st2 hwf hrun
    simp only [run_setpoints] at hrun
    rcases hmid : setpoint_loop E worker_actions rl_env_idx
        env_action_bounds steps_per_setpoint min_at_target_steps
        error_threshold target_pos fuel
        { st with
          sim_info := { st.sim_info with
            steps_since_target_set := 0
            at_target_steps := 0
            target_done := false
            current_target_idx := target_idx }
          env := E.update_target st.env target_pos
          is_new_target := true } with
      hnone | stmid
    · rw [hmid] at hrun
      cases hrun
    · rw [hmid] at hrun
      have hwfr : loop_state_wf E
          { st with
            sim_info := { st.sim_info with
              steps_since_target_set := 0
              at_target_steps := 0
              target_done := false
              current_target_idx := target_idx }
            env := E.update_target st.env target_pos
            is_new_target := true } :=
        ⟨hwf.1, hwf.2.1, hwf.2.2.1, hwf.2.2.2.1, hwf.2.2.2.2.1,
          hwf.2.2.2.2.2⟩
      have hwf1 : loop_state_wf E stmid :=
        setpoint_loop_wf E worker_actions rl_env_idx env_action_bounds
          steps_per_setpoint min_at_target_steps error_threshold target_pos
          hpos fuel _ _ hwfr hmid
      exact ih _ _ _ hwf1 hrun

theorem initial_loop_state_wf {σ : Type} (E : EnvIface σ) (env0 : σ)
    (num_setpoints : ℤ) :
    loop_state_wf E (initial_loop_state E env0 num_setpoints) := by
  refine ⟨?_, ?_, ?_, rfl, rfl, rfl⟩ <;>
    simp [initial_loop_state]

theorem stack_transpose_mem_length (ticks : List (List (List ℚ))) :
    ∀ l ∈ stack_transpose ticks, l.length = ticks.length := by
  intro l hl
  simp only [stack_transpose, List.mem_map, List.mem_range] at hl
  obtain ⟨w, _, rfl⟩ := hl
  simp

theorem stack_transpose_length (ticks : List (List (List ℚ))) :
    (stack_transpose ticks).length = (ticks.headD []).length := by
  simp [stack_transpose]

theorem construct_trajectory_lengths (env_action_bounds : List (ℚ × ℚ))
    (nal dpl : List (List (List ℚ))) (tpl : List (List ℚ)) (n : Nat)
    (hnal : ∀ rows ∈ nal, rows.length = n)
    (hdpl : ∀ rows ∈ dpl, rows.length = n) :
    (construct_trajectory_data env_action_bounds nal dpl
        tpl).system_setpoint = tpl ∧
    (∀ ci ∈ (construct_trajectory_data env_action_bounds nal dpl
        tpl).control_inputs, ci.length = nal.length) ∧
    (∀ so ∈ (construct_trajectory_data env_action_bounds nal dpl
        tpl).system_outputs, so.length = dpl.length) ∧
    (nal ≠ [] →
      (construct_trajectory_data env_action_bounds nal dpl
        tpl).control_inputs.length = n) ∧
    (dpl ≠ [] →
      (construct_trajectory_data env_action_bounds nal dpl
        tpl).system_outputs.length = n) := by
  refine ⟨rfl, ?_, ?_, ?_, ?_⟩
  · intro ci hci
    have hlen := stack_transpose_mem_length _ ci hci
    simpa [construct_trajectory_data] using hlen
  · intro so hso
    have hlen := stack_transpose_mem_length _ so hso
    simpa [construct_trajectory_data] using hlen
  · intro hne
    match nal, hne, hnal with
    | x :: rest, _, hnal =>
      show (stack_transpose _).length = n
      rw [stack_transpose_length]
      simp only [List.map_cons, List.headD_cons, List.length_map]
      exact hnal x (by simp)
  · intro hne
    match dpl, hne, hdpl with
    | y :: rest, _, hdpl =>
      show (stack_transpose _).length = n
      rw [stack_transpose_length]
      simp only [List.headD_cons]
      exact hdpl y (by simp)

/-- Claim C1 (tick alignment): for every run of the coordinator that
terminates (the inner loops exit within the given fuel) with final state
`st` after `st.tick` total ticks, the returned `ControlTrajectory` has one
setpoint entry per tick, every per-worker control-input sequence and every
per-worker system-output sequence has exactly one entry per tick, and (as
soon as at least one tick ran) there is exactly one such sequence per
worker slot.  The environment oracle is only assumed to report one position
row per environment. -/
theorem spec_c1_tick_alignment {σ : Type} (E : EnvIface σ) (env0 : σ)
    (worker_actions : Nat → List (Nat × List ℚ)) (rl_env_idx : Nat)
    (env_action_bounds : List (ℚ × ℚ)) (eval_setpoints : List (List ℚ))
    (steps_per_setpoint : Option ℤ) (min_at_target_steps : ℤ)
    (error_threshold : ℚ) (fuel : Nat) (st : LoopState σ)
    (traj : ControlTrajectory)
    (hpos : ∀ s b, (E.get_pos s b).length = E.num_envs)
    (hcore : parallel_sim_core E env0 worker_actions rl_env_idx
      env_action_bounds eval_setpoints steps_per_setpoint
      min_at_target_steps error_threshold fuel = some st)
    (htraj : parallel_controller_simulation E env0 worker_actions
      rl_env_idx env_action_bounds eval_setpoints steps_per_setpoint
      min_at_target_steps error_threshold fuel = some traj) :
    traj.system_setpoint.length = st.tick ∧
    (∀ ci ∈ traj.control_inputs, ci.length = st.tick) ∧
    (∀ so ∈ traj.system_outputs, so.length = st.tick) ∧
    (0 < st.tick →
      traj.control_inputs.length = E.num_envs ∧
      traj.system_outputs.length = E.num_envs) := by
  have hwf : loop_state_wf E st :=
    run_setpoints_wf E worker_actions rl_env_idx env_action_bounds
      steps_per_setpoint min_at_target_steps error_threshold fuel hpos
      eval_setpoints 0 _ st
      (initial_loop_state_wf E env0 (Int.ofNat eval_setpoints.length))
      hcore
  obtain ⟨h1, h2, h3, h4, h5, h6⟩ := hwf
  have htraj2 : traj = construct_trajectory_data env_action_bounds
      st.normalized_action_list st.drone_pos_list st.target_pos_list := by
    unfold parallel_controller_simulation at htraj
    rw [hcore] at htraj
    exact (Option.some.inj htraj).symm
  subst htraj2
  obtain ⟨hc1, hc2, hc3, hc4, hc5⟩ :=
    construct_trajectory_lengths env_action_bounds
      st.normalized_action_list st.drone_pos_list st.target_pos_list
      E.num_envs h2 h3
  refine ⟨?_, ?_, ?_, ?_⟩
  · rw [hc1]
    exact h6
  · intro ci hci
    rw [hc2 ci hci]
    exact h4
  · intro so hso
    rw [hc3 so hso]
    exact h5
  · intro htick
    constructor
    · exact hc4 (List.length_pos.mp (h4 ▸ htick))
    · exact hc5 (List.length_pos.mp (h5 ▸ htick))

/-- Witness for C1: the one-tick degenerate run on `trivialEnv` produces a
trajectory with one setpoint entry, three worker slots, and one entry per
slot. -/
theorem spec_c1_tick_alignment_witness :
    c1_final_traj.system_setpoint.length = c1_final_state.tick ∧
    (∀ ci ∈ c1_final_traj.control_inputs,
      ci.length = c1_final_state.tick) ∧
    (∀ so ∈ c1_final_traj.system_outputs,
      so.length = c1_final_state.tick) ∧
    (0 < c1_final_state.tick →
      c1_final_traj.control_inputs.length = trivialEnv.num_envs ∧
      c1_final_traj.system_outputs.length = trivialEnv.num_envs) :=
  spec_c1_tick_alignment trivialEnv () noActions 0 [] [[]] (some 1) 0 0 1
    c1_final_state c1_final_traj (fun _ _ => rfl) rfl rfl

end DataDrivenQuadControl

